import Mathlib

/-!
Verification of langchain.docstore.artifacts (content-addressed artifact
store with an in-memory metadata index and a caching interceptor).

The embedding follows src/langchain/docstore/artifacts.py.  Python dicts
are modelled as association lists where insertion prepends a binding and
lookup returns the most recently inserted binding for a key (last write
wins, as for a Python dict).  File writes through open(path, "w") are
modelled the same way on the content-store association list (unconditional
overwrite).  Serialization is modelled as the identity on documents: the
serialize/deserialize pair lives in langchain.docstore.serialization,
which is not part of the source tree, and the spec requires it to be an
exact round trip.
-/

namespace ArtifactStore

/-- In-transit document: logical id, content hash, parent hashes, metadata
(uninterpreted payload).  Mirrors the fields of langchain.schema.Document of
artifacts.py: document.id, document.hash_, document.parent_hashes,
document.metadata. -/
structure Document where
  id : String
  hash_ : String
  parent_hashes : List String
  metadata : String
  deriving Repr, DecidableEq

/-- Stored metadata record, mirroring the Artifact TypedDict
(custom_id, uuid, parent_uuids, metadata). -/
structure Artifact where
  custom_id : String
  uuid : String
  parent_uuids : List String
  metadata : String
  deriving Repr, DecidableEq

/-- Python dict update d[k] = v: the new binding shadows any older one. -/
def dictInsert {α : Type} (k : String) (v : α) (d : List (String × α)) :
    List (String × α) :=
  (k, v) :: d

/-- Python dict read d[k]: the most recently inserted binding for k. -/
def dictLookup {α : Type} (k : String) : List (String × α) → Option α
  | [] => none
  | (k2, v) :: rest => if k2 = k then some v else dictLookup k rest

/-- Python membership test: k in d. -/
def dictMem {α : Type} (k : String) (d : List (String × α)) : Bool :=
  (dictLookup k d).isSome

/-- Modelled from the spec: the Selector query object is declared in
langchain.docstore.base, which is absent from the source tree.  Per the
spec it carries independent optional clauses ids, hashes and
parent_hashes; an absent clause (here: the empty list) is not evaluated
and never matches by itself. -/
structure Selector where
  ids : List String
  hashes : List String
  parent_hashes : List String
  deriving Repr, DecidableEq

/-- In-memory metadata store: the artifacts list (data["artifacts"]) plus
the two derived dict indexes built in InMemoryStore.__init__. -/
structure InMemoryStore where
  artifacts : List Artifact
  artifact_uuid : List (String × Artifact)
  artifact_ids : List (String × Artifact)
  deriving Repr, DecidableEq

/-- Dict comprehension over the artifacts list: later artifacts overwrite
earlier bindings with the same key, as in the Python comprehension. -/
def buildIndex (key : Artifact → String) (arts : List Artifact) :
    List (String × Artifact) :=
  arts.foldl (fun d a => dictInsert (key a) a d) []

/-- InMemoryStore.__init__ as reached from InMemoryStore.from_file: keep
the artifacts list and build the uuid and custom_id indexes. -/
def InMemoryStore.from_file (arts : List Artifact) : InMemoryStore :=
  { artifacts := arts
    artifact_uuid := buildIndex (fun a => a.uuid) arts
    artifact_ids := buildIndex (fun a => a.custom_id) arts }

/-- InMemoryStore.exists_by_id: order-preserving membership of each id in
the custom_id index. -/
def InMemoryStore.exists_by_id (s : InMemoryStore) (ids : List String) :
    List Bool :=
  ids.map (fun i => dictMem i s.artifact_ids)

/-- InMemoryStore.exists_by_uuid, exactly as written in the source: it
tests each uuid for membership in self.artifact_ids, the custom_id index
(not the uuid index). -/
def InMemoryStore.exists_by_uuid (s : InMemoryStore) (uuids : List String) :
    List Bool :=
  uuids.map (fun u => dictMem u s.artifact_ids)

/-- InMemoryStore.get_by_uuids: reads the uuid index; a missing key raises
KeyError in Python, modelled as none. -/
def InMemoryStore.get_by_uuids (s : InMemoryStore) (uuids : List String) :
    List (Option Artifact) :=
  uuids.map (fun u => dictLookup u s.artifact_uuid)

/-- InMemoryStore.select: scan data["artifacts"] in order; an artifact is
yielded when the ids clause is supplied and contains the artifact uuid,
else when the hashes clause is supplied and contains the artifact uuid,
else when the artifact has parent uuids and one of them is in the
parent_hashes clause.  Note the source compares selector.ids against
artifact["uuid"], not against custom_id. -/
def InMemoryStore.select (s : InMemoryStore) (sel : Selector) : List String :=
  s.artifacts.filterMap (fun a =>
    if !sel.ids.isEmpty && sel.ids.contains a.uuid then
      some a.uuid
    else if !sel.hashes.isEmpty && sel.hashes.contains a.uuid then
      some a.uuid
    else if !a.parent_uuids.isEmpty
        && a.parent_uuids.any (fun p => sel.parent_hashes.contains p) then
      some a.uuid
    else
      none)

/-- InMemoryStore.add: append the record to data["artifacts"] and repoint
both indexes at it (no collision handling, per the TODO in the source). -/
def InMemoryStore.add (s : InMemoryStore) (a : Artifact) : InMemoryStore :=
  { artifacts := s.artifacts ++ [a]
    artifact_uuid := dictInsert a.uuid a s.artifact_uuid
    artifact_ids := dictInsert a.custom_id a s.artifact_ids }

/-- The error raised by the remove_by_uuids stub. -/
inductive StoreError where
  | notImplemented
  deriving Repr, DecidableEq

/-- InMemoryStore.remove_by_uuids: raise NotImplementedError, always. -/
def InMemoryStore.remove_by_uuids (_s : InMemoryStore)
    (_uuids : List String) : Except StoreError InMemoryStore :=
  Except.error StoreError.notImplemented

/-- InMemoryStore.remove: materialize select, then delegate to the
remove_by_uuids stub. -/
def InMemoryStore.remove (s : InMemoryStore) (sel : Selector) :
    Except StoreError InMemoryStore :=
  let uuids := s.select sel
  s.remove_by_uuids uuids

/-- FileSystemArtifactLayer: root directory of payload files (one per
content hash) plus the in-memory metadata store.  A payload file holds the
serialized document; with serialization modelled as the identity the
content store maps hashes to documents. -/
structure FileSystemArtifactLayer where
  files : List (String × Document)
  metadata_store : InMemoryStore
  deriving Repr, DecidableEq

/-- FileSystemArtifactLayer.exists_by_uuid: delegates to the store. -/
def FileSystemArtifactLayer.exists_by_uuid (L : FileSystemArtifactLayer)
    (uuids : List String) : List Bool :=
  L.metadata_store.exists_by_uuid uuids

/-- FileSystemArtifactLayer.exists_by_id: delegates to the store. -/
def FileSystemArtifactLayer.exists_by_id (L : FileSystemArtifactLayer)
    (ids : List String) : List Bool :=
  L.metadata_store.exists_by_id ids

/-- The Artifact record built inside FileSystemArtifactLayer.add from a
document. -/
def Document.toArtifact (d : Document) : Artifact :=
  { custom_id := d.id
    uuid := d.hash_
    parent_uuids := d.parent_hashes
    metadata := d.metadata }

/-- FileSystemArtifactLayer.add: for each document in order, write the
payload file keyed by document.hash_ (open with mode "w": unconditional
overwrite), then append the metadata record; finally the snapshot save,
which has no observable effect in this model. -/
def FileSystemArtifactLayer.add (L : FileSystemArtifactLayer)
    (docs : List Document) : FileSystemArtifactLayer :=
  docs.foldl
    (fun acc d =>
      { files := dictInsert d.hash_ d acc.files
        metadata_store := acc.metadata_store.add d.toArtifact })
    L

/-- Modelled from the spec: ArtifactLayer.exists is declared in
langchain.docstore.base, which is absent from the source tree.  Per the
spec it is the order-preserving existence check of each input document
logical id against the metadata index; the interceptor calls it with the
documents ids. -/
def FileSystemArtifactLayer.exists_ (L : FileSystemArtifactLayer)
    (ids : List String) : List Bool :=
  L.metadata_store.exists_by_id ids

/-- Modelled from the spec: ArtifactLayer.get_child_documents is declared
in langchain.docstore.base, absent from the source tree.  Per the spec a
cache hit resolves the previously stored children: the index is queried
for artifacts whose parent hashes include the given hash, and each
resulting hash is read back from the content store (a missing payload
record is skipped, matching the streaming resolution of
get_matching_documents). -/
def FileSystemArtifactLayer.get_child_documents (L : FileSystemArtifactLayer)
    (h : String) : List Document :=
  (L.metadata_store.select { ids := [], hashes := [], parent_hashes := [h] }).filterMap
    (fun u => dictLookup u L.files)

/-- Result of one CachingInterceptor.transform_documents call: the
returned documents, the inputs on which the wrapped transformer was
actually invoked (the instrumentation the spec asks for), and the layer
state afterwards. -/
structure TransformResult where
  output : List Document
  invoked : List Document
  layer : FileSystemArtifactLayer
  deriving Repr, DecidableEq

/-- The loop body of CachingInterceptor.transform_documents over
zip(documents, existence): on a miss, invoke the transformer on the
singleton list, persist its outputs through the layer, and append them;
on a hit, append the stored child documents of the input hash instead. -/
def transformLoop (T : List Document → List Document) :
    FileSystemArtifactLayer → List (Document × Bool) → TransformResult
  | L, [] => { output := [], invoked := [], layer := L }
  | L, (d, ex) :: rest =>
    if ex then
      let children := L.get_child_documents d.hash_
      let r := transformLoop T L rest
      { output := children ++ r.output, invoked := r.invoked, layer := r.layer }
    else
      let outs := T [d]
      let L1 := L.add outs
      let r := transformLoop T L1 rest
      { output := outs ++ r.output, invoked := d :: r.invoked, layer := r.layer }

/-- CachingInterceptor.transform_documents: batch existence check of the
input ids against the layer, then the per-document loop. -/
def CachingInterceptor.transform_documents (L : FileSystemArtifactLayer)
    (T : List Document → List Document) (docs : List Document) :
    TransformResult :=
  let existence := L.exists_ (docs.map (fun d => d.id))
  transformLoop T L (docs.zip existence)

/-- FileSystemArtifactLayer.add with a fallible payload write: writeOk
says whether the open/write of the payload file for a given hash
succeeds.  A failed write raises, so the loop stops before appending that
document to the metadata store; mutations from earlier iterations
persist, as in Python.  The Bool records whether the whole call
completed. -/
def FileSystemArtifactLayer.addFallible (writeOk : String → Bool) :
    FileSystemArtifactLayer → List Document → FileSystemArtifactLayer × Bool
  | L, [] => (L, true)
  | L, d :: ds =>
    if writeOk d.hash_ then
      FileSystemArtifactLayer.addFallible writeOk
        { files := dictInsert d.hash_ d L.files
          metadata_store := L.metadata_store.add d.toArtifact } ds
    else
      (L, false)

/-- Every content hash referenced by the metadata index has a payload
present in the content store. -/
def IndexBacked (L : FileSystemArtifactLayer) : Prop :=
  ∀ a ∈ L.metadata_store.artifacts, (dictLookup a.uuid L.files).isSome = true

/-- Stores reachable through the implemented API: loaded from a metadata
snapshot, then extended by any number of adds. -/
inductive Reachable : InMemoryStore → Prop
  | base (arts : List Artifact) : Reachable (InMemoryStore.from_file arts)
  | step (s : InMemoryStore) (a : Artifact) :
      Reachable s → Reachable (s.add a)

/-- Empty layer fixture: fresh root directory with an empty metadata
snapshot. -/
def emptyLayer : FileSystemArtifactLayer :=
  { files := [], metadata_store := InMemoryStore.from_file [] }

/-- Source document fixture, logical id d1, content hash h1. -/
def docD0 : Document :=
  { id := "d1", hash_ := "h1", parent_hashes := [], metadata := "src" }

/-- Transformer output fixture: logical id c1, content hash h2, parent
hash h1 (the transformer records provenance, per the module docstring
assumption). -/
def docC0 : Document :=
  { id := "c1", hash_ := "h2", parent_hashes := ["h1"], metadata := "child" }

/-- A concrete transformer: maps any input batch to the single output
docC0.  Its logical id differs from the inputs, as for a parser or
splitter. -/
def transC0 : List Document → List Document := fun _ => [docC0]

/-- First pass of docD0 through the interceptor over an empty layer. -/
def runPass1 : TransformResult :=
  CachingInterceptor.transform_documents emptyLayer transC0 [docD0]

/-- Second pass of the same logical document over the layer state left by
the first pass. -/
def runPass2 : TransformResult :=
  CachingInterceptor.transform_documents runPass1.layer transC0 [docD0]

/-- Artifact fixture: logical id x, content hash h1, no parents. -/
def artX : Artifact :=
  { custom_id := "x", uuid := "h1", parent_uuids := [], metadata := "" }

/-- Store fixture holding only artX. -/
def storeX : InMemoryStore := InMemoryStore.from_file [artX]

/-- Artifact fixture A of the selector scenario: logical id x, hash hA. -/
def artSelA : Artifact :=
  { custom_id := "x", uuid := "hA", parent_uuids := [], metadata := "" }

/-- Artifact fixture B of the selector scenario: derived from A. -/
def artSelB : Artifact :=
  { custom_id := "y", uuid := "hB", parent_uuids := ["hA"], metadata := "" }

/-- Store fixture of the selector scenario, holding A then B. -/
def storeSel : InMemoryStore := InMemoryStore.from_file [artSelA, artSelB]

/-- Payload fixture pA: content hash hC, metadata payloadA. -/
def docPayloadA : Document :=
  { id := "a", hash_ := "hC", parent_hashes := [], metadata := "payloadA" }

/-- Payload fixture pB: the same content hash hC, differing metadata. -/
def docPayloadB : Document :=
  { id := "b", hash_ := "hC", parent_hashes := [], metadata := "payloadB" }

/-- Membership in a dict after one insertion. -/
theorem dictMem_cons {α : Type} (k k2 : String) (v : α)
    (d : List (String × α)) :
    dictMem k ((k2, v) :: d) = ((k2 == k) || dictMem k d) := by
  by_cases h : k2 = k <;> simp [dictMem, dictLookup, h]

/-- Membership in the dict comprehension of __init__: a key is present
exactly when some artifact maps to it, or it was already in the
accumulator. -/
theorem buildIndex_mem (key : Artifact → String) (k : String) :
    ∀ (arts : List Artifact) (init : List (String × Artifact)),
      dictMem k (arts.foldl (fun d a => dictInsert (key a) a d) init)
        = (arts.any (fun a => key a == k) || dictMem k init)
  | [], init => by simp
  | a :: rest, init => by
    rw [List.foldl_cons, buildIndex_mem key k rest]
    simp [dictInsert, dictMem_cons]
    cases h1 : key a == k <;>
      cases h2 : rest.any (fun a => key a == k) <;> simp [h1, h2]

/-- On every store reachable through __init__ and add, the custom_id
index holds a key exactly when some artifact in the list carries it. -/
theorem reachable_mem_ids (s : InMemoryStore) (hs : Reachable s)
    (k : String) :
    dictMem k s.artifact_ids = s.artifacts.any (fun a => a.custom_id == k) := by
  induction hs with
  | base arts =>
    show dictMem k (buildIndex (fun a => a.custom_id) arts)
        = arts.any (fun a => a.custom_id == k)
    rw [buildIndex, buildIndex_mem]
    simp [dictMem, dictLookup]
  | step s a _ ih =>
    show dictMem k (dictInsert a.custom_id a s.artifact_ids)
        = (s.artifacts ++ [a]).any (fun x => x.custom_id == k)
    rw [dictInsert, dictMem_cons, ih]
    simp [List.any_append, Bool.or_comm]

/-- Boolean any over custom ids agrees with the decided existential. -/
theorem any_beq_decide (l : List Artifact) (k : String) :
    l.any (fun a => a.custom_id == k) = decide (∃ a ∈ l, a.custom_id = k) := by
  induction l with
  | nil => simp
  | cons a rest ih =>
    have hbeq : (a.custom_id == k) = decide (a.custom_id = k) := by
      by_cases h : a.custom_id = k <;> simp [h]
    simp [List.any_cons, ih, hbeq]

/-- The third select clause, for a singleton parent_hashes selector,
reduces to parent membership of the hash. -/
theorem parent_clause_eq (h : String) (ps : List String) :
    (!ps.isEmpty && ps.any (fun p => List.contains [h] p)) = ps.contains h := by
  rw [Bool.eq_iff_iff]
  simp [List.any_eq_true]
  intro hm
  exact List.ne_nil_of_mem hm

/-- A filterMap whose function is a guarded map is a filter then map. -/
theorem filterMap_guard {α β : Type} (p : α → Bool) (g : α → β) :
    ∀ l : List α,
      (l.filterMap (fun a => if p a then some (g a) else none))
        = (l.filter p).map g
  | [] => rfl
  | a :: rest => by
    cases hp : p a <;>
      simp [List.filterMap_cons, List.filter_cons, hp, filterMap_guard p g rest]

/-- select with only a singleton parent_hashes clause returns, in index
order, the uuids of exactly the artifacts whose parent uuids contain the
hash. -/
theorem select_parent_only (s : InMemoryStore) (h : String) :
    s.select { ids := [], hashes := [], parent_hashes := [h] }
      = (s.artifacts.filter (fun a => a.parent_uuids.contains h)).map
          (fun a => a.uuid) := by
  rw [InMemoryStore.select]
  simp only [List.isEmpty_nil, Bool.not_true, Bool.false_and, if_false,
    parent_clause_eq]
  exact filterMap_guard _ _ _

/-- Zipping a list with a map over itself pairs each element with its
image. -/
theorem zip_map_self (f : Document → Bool) (l : List Document) :
    l.zip (l.map f) = l.map (fun d => (d, f d)) := by
  induction l with
  | nil => rfl
  | cons d rest ih => simp [ih]

/-- The interceptor loop invokes the transformer on exactly the inputs
whose precomputed existence flag is false, in input order. -/
theorem transformLoop_invoked (T : List Document → List Document)
    (f : Document → Bool) :
    ∀ (docs : List Document) (L : FileSystemArtifactLayer),
      (transformLoop T L (docs.map (fun d => (d, f d)))).invoked
        = docs.filter (fun d => !f d)
  | [], _ => rfl
  | d :: rest, L => by
    cases hf : f d <;>
      simp [transformLoop, hf, transformLoop_invoked T f rest, List.filter_cons]

/-- The batch existence check of the interceptor, expressed per input
document. -/
theorem exists_map_ids (L : FileSystemArtifactLayer) (docs : List Document) :
    L.exists_ (docs.map (fun d => d.id))
      = docs.map (fun d => dictMem d.id L.metadata_store.artifact_ids) := by
  simp [FileSystemArtifactLayer.exists_, InMemoryStore.exists_by_id,
    List.map_map]

/-- transform_documents invokes the transformer on exactly the inputs
whose logical id is missing from the initial index. -/
theorem transform_documents_invoked (L : FileSystemArtifactLayer)
    (T : List Document → List Document) (docs : List Document) :
    (CachingInterceptor.transform_documents L T docs).invoked
      = docs.filter (fun d => !(dictMem d.id L.metadata_store.artifact_ids)) := by
  rw [CachingInterceptor.transform_documents]
  rw [exists_map_ids, zip_map_self]
  exact transformLoop_invoked T _ docs L

/-- A hit step of the loop: the input contributes the stored children of
its hash, the transformer is not invoked, and the layer is unchanged by
the step. -/
theorem transformLoop_hit (T : List Document → List Document)
    (L : FileSystemArtifactLayer) (d : Document)
    (rest : List (Document × Bool)) :
    transformLoop T L ((d, true) :: rest)
      = { output := L.get_child_documents d.hash_
            ++ (transformLoop T L rest).output
          invoked := (transformLoop T L rest).invoked
          layer := (transformLoop T L rest).layer } := rfl

/-- A present dict key stays present after any insertion. -/
theorem dictLookup_isSome_insert {α : Type} (k k2 : String) (v : α)
    (d : List (String × α)) (h : (dictLookup k d).isSome = true) :
    (dictLookup k (dictInsert k2 v d)).isSome = true := by
  by_cases hk : k2 = k <;> simp [dictInsert, dictLookup, hk, h]

/-- addFallible preserves the invariant that every indexed hash has a
payload: the metadata record of a document is only appended after its payload
write succeeded. -/
theorem addFallible_preserves (writeOk : String → Bool) :
    ∀ (docs : List Document) (L : FileSystemArtifactLayer),
      IndexBacked L →
        IndexBacked (FileSystemArtifactLayer.addFallible writeOk L docs).1
  | [], _, hI => hI
  | d :: ds, L, hI => by
    rw [FileSystemArtifactLayer.addFallible]
    cases hw : writeOk d.hash_ with
    | false => simpa [hw] using hI
    | true =>
      simp only [hw, if_true]
      apply addFallible_preserves writeOk ds
      intro a ha
      simp only [InMemoryStore.add] at ha
      rcases List.mem_append.mp ha with hold | hnew
      · exact dictLookup_isSome_insert _ _ _ _ (hI a hold)
      · have : a = d.toArtifact := List.mem_singleton.mp hnew
        subst this
        simp [Document.toArtifact, dictInsert, dictLookup]

/-- When every payload write succeeds, addFallible is exactly add and
completes. -/
theorem addFallible_total :
    ∀ (docs : List Document) (L : FileSystemArtifactLayer),
      FileSystemArtifactLayer.addFallible (fun _ => true) L docs
        = (L.add docs, true)
  | [], _ => rfl
  | d :: ds, L => by
    rw [FileSystemArtifactLayer.addFallible]
    simp only [if_true]
    rw [addFallible_total ds]
    rfl

/-- C1: the claim says feeding the same logical document twice through
CachingInterceptor.transform_documents invokes the transformer exactly
once in total, the second pass finding the logical id in the index.  On
the code, with the empty layer, document docD0 and the transformer
transC0 (whose single output has a different logical id), the transformer
is invoked on docD0 in the first pass and again in the second pass: two
invocations in total, because add records only the output ids, never the
input id.  Both calls do return equal output sequences. -/
theorem c1_second_pass_reinvokes :
    runPass1.invoked = [docD0] ∧ runPass2.invoked = [docD0]
      ∧ runPass1.invoked.length + runPass2.invoked.length = 2
      ∧ runPass1.output = runPass2.output := by decide

/-- C2: the claim says the ids clause of select matches the logical id
(custom_id).  On the code it matches the artifact uuid: with artifacts A
(id x, hash hA) and B (parents [hA]) the selector with ids x yields the
empty set rather than the claimed set containing hA, and the combined
selector yields only hB rather than both hashes; the parent_hashes part
behaves as claimed. -/
theorem c2_ids_clause_matches_uuid :
    storeSel.select { ids := ["x"], hashes := [], parent_hashes := [] } = []
      ∧ storeSel.select { ids := [], hashes := [], parent_hashes := ["hA"] }
          = ["hB"]
      ∧ storeSel.select { ids := ["x"], hashes := [], parent_hashes := ["hA"] }
          = ["hB"]
      ∧ (∃ a ∈ storeSel.artifacts, a.custom_id = "x" ∧ a.uuid = "hA") := by
  decide

/-- C3: for every input document whose logical id is found by the batch
existence check, transform_documents does not invoke the transformer on
it (the invoked list is exactly the inputs whose id is missing from the
index), a hit step contributes the stored child documents of the input
hash, and get_child_documents resolves exactly the artifacts whose parent
uuids contain that hash. -/
theorem c3_cached_children (L : FileSystemArtifactLayer)
    (T : List Document → List Document) (docs : List Document) (d : Document)
    (rest : List (Document × Bool)) (h : String) :
    (CachingInterceptor.transform_documents L T docs).invoked
        = docs.filter (fun d2 => !(dictMem d2.id L.metadata_store.artifact_ids))
      ∧ transformLoop T L ((d, true) :: rest)
          = { output := L.get_child_documents d.hash_
                ++ (transformLoop T L rest).output
              invoked := (transformLoop T L rest).invoked
              layer := (transformLoop T L rest).layer }
      ∧ L.get_child_documents h
          = ((L.metadata_store.artifacts.filter
                (fun a => a.parent_uuids.contains h)).map
              (fun a => a.uuid)).filterMap (fun u => dictLookup u L.files) :=
  ⟨transform_documents_invoked L T docs,
   transformLoop_hit T L d rest,
   by rw [FileSystemArtifactLayer.get_child_documents, select_parent_only]⟩

/-- C4: the claim says the existence check by hash answers whether some
stored artifact has the given content hash.  On the code exists_by_uuid
consults artifact_ids, the custom_id index: for the store holding one
artifact with uuid h1 and custom_id x, the query for h1 answers false
although an artifact with that uuid is stored, and the query for x
answers true although no artifact has that uuid. -/
theorem c4_exists_by_uuid_checks_custom_ids :
    storeX.exists_by_uuid ["h1", "x"] = [false, true]
      ∧ (∃ a ∈ storeX.artifacts, a.uuid = "h1")
      ∧ (∀ a ∈ storeX.artifacts, a.uuid ≠ "x") := by decide

/-- C5 counterexample: adding the same artifact twice leaves its record
in the artifacts list twice, so the second call neither leaves the index
without a duplicate record nor raises an error (add is total). -/
theorem c5_duplicate_record_counterexample :
    (((InMemoryStore.from_file []).add artX).add artX).artifacts.count artX
      = 2 := by decide

/-- C5 amended: adding the same artifact twice deterministically appends
its record twice to the artifacts list and leaves both indexes pointing
at the (equal) newest record; no error is ever raised, add being a total
function of the prior state. -/
theorem c5_add_twice_appends (s : InMemoryStore) (a : Artifact) :
    ((s.add a).add a).artifacts = s.artifacts ++ [a, a]
      ∧ dictLookup a.uuid ((s.add a).add a).artifact_uuid = some a
      ∧ dictLookup a.custom_id ((s.add a).add a).artifact_ids = some a := by
  refine ⟨?_, ?_, ?_⟩ <;> simp [InMemoryStore.add, dictInsert, dictLookup]

/-- C6 counterexample: writing payload pA under hash hC and then payload
pB under the same hash does not fail: add on the layer overwrites the file
unconditionally, and the stored payload for hC becomes pB, which differs
from pA.  No integrity check exists in the code. -/
theorem c6_overwrite_counterexample :
    dictLookup "hC" ((emptyLayer.add [docPayloadA]).add [docPayloadB]).files
        = some docPayloadB
      ∧ docPayloadB ≠ docPayloadA := by decide

/-- C6 amended: the second write under a hash silently overwrites the
first (the stored payload is the newest document written under that
hash), and re-writing an identical payload is idempotent with respect to
every content-store lookup. -/
theorem c6_last_write_wins (L : FileSystemArtifactLayer) (d d2 : Document)
    (k : String) :
    dictLookup d2.hash_ ((L.add [d]).add [d2]).files = some d2
      ∧ dictLookup k ((L.add [d]).add [d]).files
          = dictLookup k (L.add [d]).files := by
  constructor
  · simp [FileSystemArtifactLayer.add, dictInsert, dictLookup]
  · by_cases hk : d.hash_ = k <;>
      simp [FileSystemArtifactLayer.add, dictInsert, dictLookup, hk]

/-- C7 counterexample: remove is not a real operation: on a store holding
one artifact it raises NotImplementedError both for a selector matching
that artifact and for a selector matching nothing, deleting nothing and
returning no count. -/
theorem c7_remove_raises_counterexample :
    storeX.remove { ids := [], hashes := ["h1"], parent_hashes := [] }
        = Except.error StoreError.notImplemented
      ∧ storeX.remove { ids := [], hashes := [], parent_hashes := [] }
          = Except.error StoreError.notImplemented := ⟨rfl, rfl⟩

/-- C7 amended: for every store and selector, remove materializes the
matching uuids and then raises NotImplementedError from the
remove_by_uuids stub; it deletes no record (in particular it never
deletes artifacts not matched by the selector). -/
theorem c7_remove_always_raises (s : InMemoryStore) (sel : Selector) :
    s.remove sel = Except.error StoreError.notImplemented := rfl

/-- C8: in FileSystemArtifactLayer.add the payload write precedes the
metadata append for each document: with fallible payload writes, a
document whose write fails aborts the loop before its metadata record is
appended, every state reachable through add keeps the index referencing
only hashes whose payload write succeeded, and when all writes succeed
the fallible model coincides with add. -/
theorem c8_payload_write_precedes_metadata (writeOk : String → Bool)
    (L : FileSystemArtifactLayer) (d : Document) (ds docs : List Document)
    (hw : writeOk d.hash_ = false) (hI : IndexBacked L) :
    FileSystemArtifactLayer.addFallible writeOk L (d :: ds) = (L, false)
      ∧ IndexBacked (FileSystemArtifactLayer.addFallible writeOk L docs).1
      ∧ FileSystemArtifactLayer.addFallible (fun _ => true) L docs
          = (L.add docs, true) := by
  refine ⟨?_, addFallible_preserves writeOk docs L hI, addFallible_total docs L⟩
  rw [FileSystemArtifactLayer.addFallible]
  simp [hw]

/-- C8 witness: the theorem instantiated at the empty layer, the fixture
document, and a write that always fails. -/
theorem c8_payload_write_precedes_metadata_witness :
    FileSystemArtifactLayer.addFallible (fun _ => false) emptyLayer
        (docD0 :: []) = (emptyLayer, false)
      ∧ IndexBacked
          (FileSystemArtifactLayer.addFallible (fun _ => false) emptyLayer
            [docD0]).1
      ∧ FileSystemArtifactLayer.addFallible (fun _ => true) emptyLayer [docD0]
          = (emptyLayer.add [docD0], true) :=
  c8_payload_write_precedes_metadata (fun _ => false) emptyLayer docD0 []
    [docD0] rfl (by simp [IndexBacked, emptyLayer, InMemoryStore.from_file])

/-- C9: on every reachable store, exists_by_id returns one boolean per
input id, in input order, and the i-th answer is exactly whether some
stored artifact has that custom_id (so the result depends only on which
artifacts are stored, not on internal index order). -/
theorem c9_exists_by_id_characterizes (s : InMemoryStore) (ids : List String)
    (hs : Reachable s) :
    s.exists_by_id ids
      = ids.map (fun i => decide (∃ a ∈ s.artifacts, a.custom_id = i)) := by
  show ids.map (fun i => dictMem i s.artifact_ids) = _
  apply List.map_congr_left
  intro i _
  rw [reachable_mem_ids s hs i, any_beq_decide]

/-- C9 witness: the theorem instantiated at the store holding artX and
the id list x, q, then evaluated. -/
theorem c9_exists_by_id_witness :
    storeX.exists_by_id ["x", "q"] = [true, false] :=
  (c9_exists_by_id_characterizes storeX ["x", "q"]
    (Reachable.base [artX])).trans (by decide)

/-- C10: InMemoryStore.add is total and, for every prior store (including
one already holding the same uuid or custom_id), appends the record to
the artifacts list while retaining older records, repoints both indexes
to the new record so get_by_uuids and the id existence check see it, and
after adding the same artifact twice a select by its hash yields its uuid
more than once. -/
theorem c10_add_always_appends (s : InMemoryStore) (a : Artifact) :
    (s.add a).artifacts = s.artifacts ++ [a]
      ∧ dictLookup a.uuid (s.add a).artifact_uuid = some a
      ∧ dictLookup a.custom_id (s.add a).artifact_ids = some a
      ∧ (s.add a).get_by_uuids [a.uuid] = [some a]
      ∧ (s.add a).exists_by_id [a.custom_id] = [true]
      ∧ 2 ≤ (((s.add a).add a).select
              { ids := [], hashes := [a.uuid], parent_hashes := [] }).count
            a.uuid := by
  refine ⟨rfl, ?_, ?_, ?_, ?_, ?_⟩
  · simp [InMemoryStore.add, dictInsert, dictLookup]
  · simp [InMemoryStore.add, dictInsert, dictLookup]
  · simp [InMemoryStore.get_by_uuids, InMemoryStore.add, dictInsert, dictLookup]
  · simp [InMemoryStore.exists_by_id, InMemoryStore.add, dictMem, dictInsert,
      dictLookup]
  · simp [InMemoryStore.select, InMemoryStore.add, List.filterMap_append,
      List.count_append]

end ArtifactStore
